import Mathlib

/-!
Shallow embedding of `sitemap_gen.py`, a one-shot static-site sitemap
generator, together with proofs about its behaviour.

Strings are modelled as `List Char` (`Str`); the filesystem is passed in
explicitly: the walk result as a list of `(root, files)` pairs, the
directory listing as a list of names, the marker-file content as an
`Option Str` (`none` = file absent), the random source as a function
`Nat → Char` (resp. `Nat → Str` for whole generated names), and the
current date as an opaque string.  Writing a file is modelled by
returning its content.
-/

/-- Strings of the embedded program: lists of characters. -/
abbrev Str := List Char

/-- Characters accepted by Python's `str.strip()` with no argument
(ASCII whitespace; the rare non-ASCII Unicode space characters are not
modelled). -/
def pyIsSpace (c : Char) : Bool :=
  c = ' ' || c = '\t' || c = '\n' || c = '\r' || c = '\x0b' || c = '\x0c'

/-- Python `s.strip()`: remove leading and trailing whitespace. -/
def pyStrip (s : Str) : Str :=
  ((s.dropWhile pyIsSpace).reverse.dropWhile pyIsSpace).reverse

/-- Lines 7-14 of the source: read the domain from the CNAME file.
The `Option` argument is the file's content (`none` when the file is
missing, which raises `FileNotFoundError` in the source).  The returned
`Bool` records whether the warning branch ran.  A present file yields
`f.read().strip()`; an absent one yields the fallback `example.com`
after the warning. -/
def get_domain_from_cname (cname : Option Str) : Str × Bool :=
  match cname with
  | some content => (pyStrip content, false)
  | none => ("example.com".data, true)

/-- Spec-side definition (for claim C6 only), following the spec's words
"first line (trimmed) is the domain": the content up to the first
newline, then stripped.  The source itself strips the whole content. -/
def spec_first_line (s : Str) : Str :=
  s.takeWhile (fun c => c != '\n')

/-- Python `os.path.join(a, b)` for POSIX paths as used by `os.walk`:
an absolute `b` replaces `a`; otherwise `b` is appended with exactly one
separator. -/
def pyOsPathJoin (a b : Str) : Str :=
  if b.head? = some '/' then b
  else if a = [] ∨ a.getLast? = some '/' then a ++ b
  else a ++ '/' :: b

/-- Python `s.replace('./', '')` (line 25 of the source): delete every
left-to-right non-overlapping occurrence of the two-character substring
`./`. -/
def stripDotSlash : Str → Str
  | [] => []
  | [c] => [c]
  | c :: d :: rest =>
    if c = '.' ∧ d = '/' then stripDotSlash rest
    else c :: stripDotSlash (d :: rest)

/-- Line 25 of the source: `os.path.join(root, file).replace('./', '')`. -/
def full_path (root file : Str) : Str :=
  stripDotSlash (pyOsPathJoin root file)

/-- Lines 26-29 of the source: if the (normalized) full path ends with
`index.html`, drop the last 10 characters (`full_path[:-10]`), else keep
the path. -/
def url_from_full (fp : Str) : Str :=
  if "index.html".data <:+ fp then fp.take (fp.length - 10) else fp

/-- The URL path derived from one discovered file (lines 25-29). -/
def url_path (root file : Str) : Str :=
  url_from_full (full_path root file)

/-- Lines 16-31 of the source: walk the tree (`walk` is the sequence of
`(root, files)` pairs produced by `os.walk`, after the `.git` pruning),
keep the files ending in `.html`, and derive each one's URL path. -/
def get_all_html_files (walk : List (Str × List Str)) : List Str :=
  (walk.map (fun rf =>
    (rf.2.filter (fun file => ".html".data.isSuffixOf file)).map
      (fun file => url_path rf.1 file))).flatten

/-- Python `string.ascii_lowercase`. -/
def ascii_lowercase : Str := "abcdefghijklmnopqrstuvwxyz".data

/-- Python `string.digits`. -/
def digits : Str := "0123456789".data

/-- Line 35 of the source: `string.ascii_lowercase + string.digits`. -/
def letters : Str := ascii_lowercase ++ digits

/-- Lines 33-36 of the source: `'sm_' + random token + '.xml'`.  The
random source is modelled by `pick`, giving the character chosen by
`random.choice(letters)` at each loop index. -/
def generate_random_name (pick : Nat → Char) (len : Nat) : Str :=
  "sm_".data ++ (List.range len).map pick ++ ".xml".data

/-- Membership in the regex class `[a-z0-9]`. -/
def isLowerAlnum (c : Char) : Bool :=
  decide (('a' ≤ c ∧ c ≤ 'z') ∨ ('0' ≤ c ∧ c ≤ '9'))

/-- Line 46 of the source: `url.lstrip('/')`. -/
def clean_url (url : Str) : Str :=
  url.dropWhile (fun c => c = '/')

/-- Line 47 of the source: `f"https://{domain}/{clean_url}"`. -/
def full_url (domain url : Str) : Str :=
  "https://".data ++ domain ++ '/' :: clean_url url

/-- Line 48 of the source: one `<url>` element of a fragment. -/
def url_entry (domain today url : Str) : Str :=
  "  <url>\n    <loc>".data ++ full_url domain url
    ++ "</loc>\n    <lastmod>".data ++ today
    ++ "</lastmod>\n    <priority>0.8</priority>\n  </url>\n".data

/-- Lines 38-52 of the source: the content written by
`create_sitemap_chunk(urls, domain, filename)` (the file name plays no
role in the content; `today` stands for the formatted current date). -/
def create_sitemap_chunk_content (urls : List Str) (domain today : Str) : Str :=
  "<?xml version=\"1.0\" encoding=\"UTF-8\"?>\n<urlset xmlns=\"http://www.sitemaps.org/schemas/sitemap/0.9\">\n".data
    ++ (urls.map (fun url => url_entry domain today url)).flatten
    ++ "</urlset>".data

/-- Line 57 of the source: the regex `^sm_[a-z0-9]+\.xml$` as a
decidable test: prefix `sm_`, suffix `.xml`, total length at least 8
(so the token between them is nonempty), token drawn from `[a-z0-9]`. -/
def fragment_regex_match (f : Str) : Bool :=
  "sm_".data.isPrefixOf f && ".xml".data.isSuffixOf f
    && decide (8 ≤ f.length)
    && ((f.drop 3).take (f.length - 7)).all isLowerAlnum

/-- Lines 54-58 of the source: filter the directory listing by the
fragment-name regex. -/
def get_existing_sitemaps (listing : List Str) : List Str :=
  listing.filter fragment_regex_match

/-- Line 66 of the source: `sorted(list(set(sitemap_files)))`.  A Python
set loses duplicates and `sorted` produces the unique ascending
enumeration of the remaining elements, which insertion sort of the
deduplicated list computes as well (both are the sorted permutation of
the same duplicate-free elements, and that permutation is unique). -/
def create_main_index_list (sitemap_files : List Str) : List Str :=
  List.insertionSort (fun a b => a ≤ b) sitemap_files.dedup

/-- Line 67 of the source: one `<sitemap>` element of the index. -/
def sitemap_index_entry (domain sm : Str) : Str :=
  "  <sitemap>\n    <loc>https://".data ++ domain ++ '/' :: sm
    ++ "</loc>\n  </sitemap>\n".data

/-- Lines 60-71 of the source: the content written to `sitemap.xml`,
one `<sitemap>` entry per element of the sorted deduplicated list. -/
def create_main_index_content (sitemap_files : List Str) (domain : Str) : Str :=
  "<?xml version=\"1.0\" encoding=\"UTF-8\"?>\n<sitemapindex xmlns=\"http://www.sitemaps.org/schemas/sitemap/0.9\">\n".data
    ++ ((create_main_index_list sitemap_files).map
      (fun sm => sitemap_index_entry domain sm)).flatten
    ++ "</sitemapindex>".data

/-- Lines 73-78 of the source: the content written to `robots.txt`. -/
def robots_txt_content (domain : Str) : Str :=
  "User-agent: *\nAllow: /\n".data
    ++ "\nSitemap: https://".data ++ domain ++ "/sitemap.xml".data

/-- Python slice `l[i:j]` for `0 ≤ i ≤ j` (clamping beyond the end,
exactly as `drop`/`take` do). -/
def pySlice (l : List α) (i j : Nat) : List α :=
  (l.drop i).take (j - i)

/-- Python `range(0, stop, step)` for `step ≥ 1`: the multiples of
`step` below `stop`, of which there are `⌈stop/step⌉`. -/
def pyRangeStep (stop step : Nat) : List Nat :=
  (List.range ((stop + step - 1) / step)).map (fun k => k * step)

/-- Line 91 of the source:
`[all_urls[i:i + MAX_URLS] for i in range(0, len(all_urls), MAX_URLS)]`. -/
def pyChunks (l : List α) (n : Nat) : List (List α) :=
  (pyRangeStep l.length n).map (fun i => pySlice l i (i + n))

/-- Python `s.split('\n')`: the newline-separated segments of `s`
(one more segment than there are newlines). -/
def splitOnNl : Str → List Str
  | [] => [[]]
  | c :: rest =>
    if c = '\n' then [] :: splitOnNl rest
    else (splitOnNl rest).modifyHead (fun h => c :: h)

/-- Everything `main` (lines 80-108) writes or decides, as pure data. -/
structure RunResult where
  domain : Str
  warned : Bool
  newSitemapFilenames : List Str
  newFragments : List (Str × Str)
  indexList : List Str
  robotsContent : Str

/-- Lines 80-108 of the source, as a pure function of the run's inputs:
the marker-file content, the filesystem walk, the directory listing
taken before any new file is written (line 88 runs before the loop),
the sequence of generated fragment names (`gen i` is the name returned
by the `i`-th call of `generate_random_name`), and the current date. -/
def mainRun (cname : Option Str) (walk : List (Str × List Str))
    (dirListing : List Str) (gen : Nat → Str) (today : Str) : RunResult :=
  let dw := get_domain_from_cname cname
  let all_urls := get_all_html_files walk
  let existing_sitemaps := get_existing_sitemaps dirListing
  let chunks := pyChunks all_urls 2000
  let new_sitemap_filenames := (List.range chunks.length).map gen
  let total_sitemaps := existing_sitemaps ++ new_sitemap_filenames
  { domain := dw.1
    warned := dw.2
    newSitemapFilenames := new_sitemap_filenames
    newFragments :=
      new_sitemap_filenames.zip
        (chunks.map (fun c => create_sitemap_chunk_content c dw.1 today))
    indexList := create_main_index_list total_sitemaps
    robotsContent := robots_txt_content dw.1 }

/-! Helper lemmas about the embedded operations. -/

theorem stripDotSlash_cons₂ (c d : Char) (rest : Str) :
    stripDotSlash (c :: d :: rest) =
      if c = '.' ∧ d = '/' then stripDotSlash rest
      else c :: stripDotSlash (d :: rest) := rfl

theorem stripDotSlash_fixed : ∀ s : Str, (∀ c ∈ s, c ≠ '.') → stripDotSlash s = s := by
  intro s
  induction s using stripDotSlash.induct with
  | case1 => intro _; rfl
  | case2 c => intro _; rfl
  | case3 c d rest h ih =>
    intro hm
    exact absurd h.1 (hm c (List.mem_cons_self c (d :: rest)))
  | case4 c d rest h ih =>
    intro hm
    rw [stripDotSlash_cons₂, if_neg h, ih (fun x hx => hm x (List.mem_cons_of_mem c hx))]

theorem stripDotSlash_append (r : Str) (hr : stripDotSlash r = r)
    (hhead : ∀ c ∈ r.head?, c ≠ '/') :
    ∀ s, stripDotSlash (s ++ r) = stripDotSlash s ++ r := by
  intro s
  induction s using stripDotSlash.induct with
  | case1 => simpa [stripDotSlash] using hr
  | case2 c =>
    cases r with
    | nil => simp [stripDotSlash]
    | cons b bs =>
      have hb : b ≠ '/' := hhead b (by simp)
      simp only [List.singleton_append, stripDotSlash_cons₂]
      rw [if_neg (fun hand => hb hand.2)]
      simpa [stripDotSlash] using hr
  | case3 c d rest h ih =>
    simp only [List.cons_append, stripDotSlash_cons₂, if_pos h]
    exact ih
  | case4 c d rest h ih =>
    simp only [List.cons_append, stripDotSlash_cons₂, if_neg h]
    exact congrArg (c :: ·) ih

theorem stripDotSlash_skip (q : Str) : ∀ p : Str, (∀ c ∈ p, c ≠ '.') →
    stripDotSlash (p ++ '.' :: '/' :: q) = p ++ stripDotSlash q := by
  intro p
  induction p with
  | nil =>
    intro _
    simp only [List.nil_append]
    rw [stripDotSlash_cons₂, if_pos ⟨rfl, rfl⟩]
  | cons c t ih =>
    intro hm
    have hc : c ≠ '.' := hm c (List.mem_cons_self c t)
    cases ht : t ++ '.' :: '/' :: q with
    | nil => exact absurd ht (by simp)
    | cons d rest =>
      rw [List.cons_append, ht, stripDotSlash_cons₂, if_neg (fun hand => hc hand.1), ← ht,
        ih (fun x hx => hm x (List.mem_cons_of_mem c hx)), List.cons_append]

theorem url_from_full_append (u : Str) :
    url_from_full (u ++ "index.html".data) = u := by
  unfold url_from_full
  rw [if_pos (List.suffix_append u _)]
  have hlen : (u ++ "index.html".data).length - 10 = u.length := by
    have h10 : ("index.html".data).length = 10 := rfl
    rw [List.length_append]
    omega
  rw [hlen]
  exact List.take_left u _

theorem suffix_append_cancel {u w v : Str} : u ++ v <:+ w ++ v ↔ u <:+ w := by
  constructor
  · rintro ⟨t, ht⟩
    rw [← List.append_assoc] at ht
    exact ⟨t, List.append_cancel_right ht⟩
  · rintro ⟨t, rfl⟩
    exact ⟨t, by rw [List.append_assoc]⟩

theorem full_path_url_of_index_suffix (root file : Str)
    (hf : "index.html".data <:+ file) :
    url_path root file ++ "index.html".data = full_path root file := by
  obtain ⟨a, rfl⟩ := hf
  have hsds : ∀ s : Str,
      stripDotSlash (s ++ "index.html".data) = stripDotSlash s ++ "index.html".data :=
    stripDotSlash_append _ (by decide) (by decide)
  unfold url_path full_path pyOsPathJoin
  split
  · rw [hsds a, url_from_full_append]
  · split
    · rw [← List.append_assoc, hsds, url_from_full_append]
    · rw [show root ++ '/' :: (a ++ "index.html".data)
            = (root ++ '/' :: a) ++ "index.html".data from by simp,
        hsds, url_from_full_append]

theorem pyChunks_nil (n : Nat) : pyChunks ([] : List α) n = [] := by
  have h : (n - 1) / n = 0 := by
    rcases Nat.eq_zero_or_pos n with h0 | h0
    · subst h0; rfl
    · exact Nat.div_eq_of_lt (by omega)
  simp [pyChunks, pyRangeStep, h]

theorem pyChunks_cons_step {n : Nat} (hn : 0 < n) (l : List α) (hl : l ≠ []) :
    pyChunks l n = l.take n :: pyChunks (l.drop n) n := by
  have hL : 1 ≤ l.length := List.length_pos.mpr hl
  have hceil : (l.length + n - 1) / n = ((l.drop n).length + n - 1) / n + 1 := by
    rw [List.length_drop]
    rcases le_or_lt l.length n with h | h
    · have h1 : l.length - n = 0 := by omega
      rw [h1]
      have h2 : (0 + n - 1) / n = 0 := Nat.div_eq_of_lt (by omega)
      rw [h2]
      exact Nat.div_eq_of_lt_le (by omega) (by omega)
    · have h3 : l.length + n - 1 = (l.length - n + n - 1) + n := by omega
      rw [h3, Nat.add_div_right _ hn]
  unfold pyChunks pyRangeStep
  rw [hceil, List.range_succ_eq_map]
  simp only [List.map_cons, List.map_map, Function.comp]
  refine List.cons_eq_cons.mpr ⟨?_, ?_⟩
  · show pySlice l (0 * n) (0 * n + n) = l.take n
    simp [pySlice]
  · apply List.map_congr_left
    intro k hk
    show pySlice l (Nat.succ k * n) (Nat.succ k * n + n)
        = pySlice (l.drop n) (k * n) (k * n + n)
    unfold pySlice
    rw [Nat.add_sub_cancel_left, Nat.add_sub_cancel_left, Nat.succ_mul,
      List.drop_drop, Nat.add_comm n (k * n)]

theorem pyChunks_flatten {n : Nat} (hn : 0 < n) (l : List α) :
    (pyChunks l n).flatten = l := by
  rcases eq_or_ne l [] with rfl | hne
  · simp [pyChunks_nil]
  · rw [pyChunks_cons_step hn l hne, List.flatten_cons,
      pyChunks_flatten hn (l.drop n)]
    exact List.take_append_drop n l
termination_by l.length
decreasing_by
  rw [List.length_drop]
  have := List.length_pos.mpr hne
  omega

theorem pyChunks_length_le (n : Nat) (l : List α) :
    ∀ c ∈ pyChunks l n, c.length ≤ n := by
  intro c hc
  unfold pyChunks pyRangeStep at hc
  simp only [List.map_map, List.mem_map, List.mem_range, Function.comp] at hc
  obtain ⟨k, _, rfl⟩ := hc
  show ((l.drop (k * n)).take (k * n + n - k * n)).length ≤ n
  rw [Nat.add_sub_cancel_left]
  exact (l.drop (k * n)).length_take_le n

theorem dropLast_map_range (m : Nat) (f : Nat → β) :
    ((List.range m).map f).dropLast = (List.range (m - 1)).map f := by
  cases m with
  | zero => rfl
  | succ k =>
    rw [List.range_succ, List.map_append]
    simp [List.dropLast_concat]

theorem pyChunks_dropLast_length {n : Nat} (hn : 0 < n) (l : List α) :
    ∀ c ∈ (pyChunks l n).dropLast, c.length = n := by
  intro c hc
  unfold pyChunks pyRangeStep at hc
  rw [List.map_map, dropLast_map_range] at hc
  simp only [List.mem_map, List.mem_range, Function.comp] at hc
  obtain ⟨k, hk, rfl⟩ := hc
  have hmul : (k + 2) * n ≤ l.length + n - 1 := by
    refine (Nat.le_div_iff_mul_le hn).mp ?_
    omega
  have hexp : (k + 2) * n = k * n + n + n := by ring
  have hbound : k * n + n ≤ l.length := by omega
  show ((l.drop (k * n)).take (k * n + n - k * n)).length = n
  rw [Nat.add_sub_cancel_left, List.length_take, List.length_drop]
  omega

theorem splitOnNl_cons_nl (rest : Str) :
    splitOnNl ('\n' :: rest) = [] :: splitOnNl rest := by
  simp [splitOnNl]

theorem splitOnNl_cons_ne (c : Char) (rest : Str) (h : c ≠ '\n') :
    splitOnNl (c :: rest) = (splitOnNl rest).modifyHead (fun hh => c :: hh) := by
  simp [splitOnNl, h]

theorem splitOnNl_append (l : Str) (hl : ∀ c ∈ l, c ≠ '\n') (r : Str) :
    splitOnNl (l ++ r) = (splitOnNl r).modifyHead (fun hh => l ++ hh) := by
  induction l with
  | nil =>
    cases h : splitOnNl r <;> simp [List.modifyHead, h]
  | cons c t ih =>
    have hc : c ≠ '\n' := hl c (List.mem_cons_self c t)
    rw [List.cons_append, splitOnNl_cons_ne c _ hc,
      ih (fun x hx => hl x (List.mem_cons_of_mem c hx))]
    cases h : splitOnNl r <;> simp [List.modifyHead, h]

theorem splitOnNl_no_nl (s : Str) (h : ∀ c ∈ s, c ≠ '\n') : splitOnNl s = [s] := by
  induction s with
  | nil => rfl
  | cons c t ih =>
    rw [splitOnNl_cons_ne c t (h c (List.mem_cons_self c t)),
      ih (fun x hx => h x (List.mem_cons_of_mem c hx))]
    rfl

theorem clean_url_head (url : Str) :
    ∀ c, (clean_url url).head? = some c → c ≠ '/' := by
  intro c hc
  have hd := List.head?_dropWhile_not (fun x => decide (x = '/')) url
  rw [show url.dropWhile (fun x => decide (x = '/')) = clean_url url from rfl] at hd
  rw [hc] at hd
  simpa using hd

theorem clean_url_split (url : Str) :
    url = List.replicate (url.length - (clean_url url).length) '/' ++ clean_url url := by
  have hsplit : url.takeWhile (fun c => decide (c = '/')) ++ clean_url url = url :=
    @List.takeWhile_append_dropWhile _ (fun c => decide (c = '/')) url
  have hrep : url.takeWhile (fun c => decide (c = '/'))
      = List.replicate (url.takeWhile (fun c => decide (c = '/'))).length '/' := by
    refine List.eq_replicate_of_mem ?_
    intro b hb
    have := List.mem_takeWhile_imp hb
    simpa using this
  have hlen2 : url.length
      = (url.takeWhile (fun c => decide (c = '/'))).length + (clean_url url).length := by
    conv_lhs => rw [← hsplit]
    rw [List.length_append]
  have hlen : url.length - (clean_url url).length
      = (url.takeWhile (fun c => decide (c = '/'))).length := by
    omega
  rw [hlen, ← hrep]
  exact hsplit.symm

theorem letters_lower_alnum : ∀ c ∈ letters, isLowerAlnum c = true := by decide

/-! The claims. -/

/-- Claim C2: for every URL list and chunk size 2000, concatenating the
chunks of line 91 in order reproduces the list, every chunk except
possibly the last has exactly 2000 entries, and no chunk has more. -/
theorem c2_chunk_partition (l : List Str) :
    (pyChunks l 2000).flatten = l
    ∧ (∀ c ∈ pyChunks l 2000, c.length ≤ 2000)
    ∧ (∀ c ∈ (pyChunks l 2000).dropLast, c.length = 2000) :=
  ⟨pyChunks_flatten (by omega) l, pyChunks_length_le 2000 l,
    pyChunks_dropLast_length (by omega) l⟩

/-- Witness for C2 at a concrete two-element list. -/
theorem c2_chunk_partition_witness :
    (pyChunks ["a.html".data, "b.html".data] 2000).flatten
      = ["a.html".data, "b.html".data] :=
  (c2_chunk_partition ["a.html".data, "b.html".data]).1

/-- Claim C4: the URL rendered into a fragment is
`https://{domain}/{path minus its leading slashes}`: the stripped path
neither starts with a slash nor lost anything but leading slashes, so
exactly one slash separates domain and path. -/
theorem c4_single_slash (domain url : Str) :
    full_url domain url = "https://".data ++ domain ++ '/' :: clean_url url
    ∧ url = List.replicate (url.length - (clean_url url).length) '/' ++ clean_url url
    ∧ (∀ c, (clean_url url).head? = some c → c ≠ '/') :=
  ⟨rfl, clean_url_split url, clean_url_head url⟩

/-- Witness for C4 at a path with three leading slashes. -/
theorem c4_single_slash_witness :
    full_url ("example.com".data) ("///about.html".data)
      = "https://".data ++ "example.com".data ++ '/' :: clean_url ("///about.html".data) :=
  (c4_single_slash ("example.com".data) ("///about.html".data)).1

/-- Claim C5: with the marker file absent the resolver warns and falls
back to `example.com`, the run continues (the model of `main` is a total
function, so the fallback value is simply used downstream), and the
present-file branch is the only one that never warns. -/
theorem c5_missing_cname_fallback (walk : List (Str × List Str)) (listing : List Str)
    (gen : Nat → Str) (today : Str) :
    (mainRun none walk listing gen today).domain = "example.com".data
    ∧ (mainRun none walk listing gen today).warned = true
    ∧ (∀ content : Str, (get_domain_from_cname (some content)).2 = false)
    ∧ (∀ content : Str, (mainRun (some content) walk listing gen today).warned = false) :=
  ⟨rfl, rfl, fun _ => rfl, fun _ => rfl⟩

/-- Witness for C5 at a concrete empty environment. -/
theorem c5_missing_cname_fallback_witness :
    (mainRun none [] [] (fun _ => []) []).domain = "example.com".data :=
  (c5_missing_cname_fallback [] [] (fun _ => []) []).1

/-- Claim C6 fails on the code: for the two-line content `a.com\nb.org`
the source (line 11, `f.read().strip()`) keeps the whole content, while
the claim demands the trimmed first line `a.com`. -/
theorem c6_whole_file_counterexample :
    (get_domain_from_cname (some ("a.com\nb.org".data))).1 = "a.com\nb.org".data
    ∧ pyStrip (spec_first_line ("a.com\nb.org".data)) = "a.com".data
    ∧ ¬ ((get_domain_from_cname (some ("a.com\nb.org".data))).1
        = pyStrip (spec_first_line ("a.com\nb.org".data))) := by
  decide

/-- Claim C6 amended: when the marker file's content has no newline
(the usual single-line CNAME), the domain equals the trimmed content,
which is the trimmed first line; multi-line contents keep the whole
stripped text instead. -/
theorem c6_single_line_domain (content : Str) (h : ∀ c ∈ content, c ≠ '\n') :
    (get_domain_from_cname (some content)).1 = pyStrip (spec_first_line content) := by
  have hfl : spec_first_line content = content := by
    apply List.takeWhile_eq_self_iff.mpr
    intro x hx
    simpa using h x hx
  rw [hfl]
  rfl

/-- Witness for the amended C6 at a concrete single-line content. -/
theorem c6_single_line_domain_witness :
    (get_domain_from_cname (some ("  example.org ".data))).1
      = pyStrip (spec_first_line ("  example.org ".data)) :=
  c6_single_line_domain ("  example.org ".data) (by decide)

/-- Claim C7: every name the generator can produce with token length 12
is `sm_`, then exactly 12 characters from `[a-z0-9]`, then `.xml`; in
particular it is accepted by the scanner regex of line 57. -/
theorem c7_fragment_name_pattern (pick : Nat → Char)
    (hp : ∀ i, i < 12 → pick i ∈ letters) :
    (∃ tok : Str, generate_random_name pick 12 = "sm_".data ++ tok ++ ".xml".data
      ∧ tok.length = 12 ∧ ∀ c ∈ tok, isLowerAlnum c = true)
    ∧ fragment_regex_match (generate_random_name pick 12) = true := by
  have htok : ∀ c ∈ (List.range 12).map pick, isLowerAlnum c = true := by
    intro c hc
    obtain ⟨i, hi, rfl⟩ := List.mem_map.mp hc
    exact letters_lower_alnum (pick i) (hp i (List.mem_range.mp hi))
  have hlen : ((List.range 12).map pick).length = 12 := by
    rw [List.length_map, List.length_range]
  refine ⟨⟨(List.range 12).map pick, rfl, hlen, htok⟩, ?_⟩
  have h3 : ("sm_".data).length = 3 := rfl
  have h4 : (".xml".data).length = 4 := rfl
  have hflen : (generate_random_name pick 12).length = 19 := by
    unfold generate_random_name
    rw [List.length_append, List.length_append, h3, h4, hlen]
  unfold fragment_regex_match
  rw [hflen]
  unfold generate_random_name
  simp only [Bool.and_eq_true]
  refine ⟨⟨⟨?_, ?_⟩, ?_⟩, ?_⟩
  · exact List.isPrefixOf_iff_prefix.mpr
      (by rw [List.append_assoc]; exact List.prefix_append _ _)
  · exact List.isSuffixOf_iff_suffix.mpr (List.suffix_append _ _)
  · decide
  · rw [show (19 - 7 : Nat) = 12 from rfl, List.append_assoc,
      List.drop_left' h3, List.take_left' hlen]
    exact List.all_eq_true.mpr htok

/-- Witness for C7 with the constant random source always choosing `a`. -/
theorem c7_fragment_name_pattern_witness :
    fragment_regex_match (generate_random_name (fun _ => 'a') 12) = true :=
  (c7_fragment_name_pattern (fun _ => 'a') (fun _ _ => (by decide : 'a' ∈ letters))).2

/-- Claim C3 fails on the code: `myindex.html` is an HTML file whose
final path component is not `index.html`, yet the `endswith('index.html')`
test of line 26 fires on it and line 27 strips its last 10 characters,
so the derived URL path is `my`, not the unchanged file path. -/
theorem c3_endswith_counterexample :
    url_path (".".data) ("myindex.html".data) = "my".data
    ∧ full_path (".".data) ("myindex.html".data) = "myindex.html".data
    ∧ ¬ (url_path (".".data) ("myindex.html".data)
        = full_path (".".data) ("myindex.html".data)) := by
  decide

/-- Claim C3 amended: whenever the discovered file name ends in the
substring `index.html` (the default document itself, but also names
like `myindex.html`), the derived URL path is the normalized joined
path with its last 10 characters `index.html` removed; any other HTML
file keeps its normalized path unchanged, provided the normalized path
does not end in `index.html`. -/
theorem c3_index_suffix_paths :
    (∀ root file : Str, "index.html".data <:+ file →
      url_path root file ++ "index.html".data = full_path root file)
    ∧ (∀ root file : Str, ¬ ("index.html".data <:+ full_path root file) →
      url_path root file = full_path root file) := by
  constructor
  · exact full_path_url_of_index_suffix
  · intro root file h
    unfold url_path url_from_full
    rw [if_neg h]

/-- Witness for the amended C3 at the default document in the root. -/
theorem c3_index_suffix_paths_witness :
    url_path (".".data) ("index.html".data) ++ "index.html".data
      = full_path (".".data) ("index.html".data) :=
  c3_index_suffix_paths.1 (".".data) ("index.html".data) (by decide)

/-- Claim C10: the `replace('./', '')` of line 25 removes interior
occurrences too, so walking a directory named `a.` (root `./a.`) and a
file `f.html` inside it yields the URL path `af.html`: the directory's
trailing dot and the following separator are gone. -/
theorem c10_interior_dot_slash_removed (a f : Str)
    (ha : ∀ c ∈ a, c ≠ '.' ∧ c ≠ '/') (hf : ∀ c ∈ f, c ≠ '.' ∧ c ≠ '/')
    (hix : ¬ ("index".data <:+ a ++ f)) :
    full_path ("./".data ++ a ++ ['.']) (f ++ ".html".data)
      = a ++ f ++ ".html".data
    ∧ url_path ("./".data ++ a ++ ['.']) (f ++ ".html".data)
      = a ++ f ++ ".html".data := by
  have hfp : full_path ("./".data ++ a ++ ['.']) (f ++ ".html".data)
      = a ++ (f ++ ".html".data) := by
    unfold full_path pyOsPathJoin
    rw [if_neg ?hhead]
    case hhead =>
      cases f with
      | nil => decide
      | cons c t =>
        simp only [List.cons_append, List.head?_cons]
        intro heq
        exact (hf c (List.mem_cons_self c t)).2 (Option.some.inj heq)
    rw [if_neg ?hroot]
    case hroot =>
      push_neg
      refine ⟨by simp, ?_⟩
      rw [List.getLast?_concat]
      decide
    rw [show ("./".data ++ a ++ ['.']) ++ '/' :: (f ++ ".html".data)
          = '.' :: '/' :: (a ++ '.' :: '/' :: (f ++ ".html".data)) from by simp]
    rw [stripDotSlash_cons₂, if_pos ⟨rfl, rfl⟩]
    rw [stripDotSlash_skip _ a (fun c hc => (ha c hc).1)]
    rw [stripDotSlash_append (".html".data) (by decide) (by decide) f]
    rw [stripDotSlash_fixed f (fun c hc => (hf c hc).1)]
  constructor
  · rw [hfp, ← List.append_assoc]
  · unfold url_path
    rw [hfp]
    unfold url_from_full
    rw [if_neg ?hnosuf]
    · rw [← List.append_assoc]
    case hnosuf =>
      intro hsuf
      apply hix
      rw [show ("index.html".data : Str) = "index".data ++ ".html".data from by decide,
        ← List.append_assoc] at hsuf
      exact suffix_append_cancel.mp hsuf

/-- Witness for C10: directory `a.`, file `b.html`, derived path `ab.html`. -/
theorem c10_interior_dot_slash_removed_witness :
    url_path ("./a.".data) ("b.html".data) = "ab.html".data := by
  have h := (c10_interior_dot_slash_removed ("a".data) ("b".data)
    (by decide) (by decide) (by decide)).2
  exact h

/-- Claim C8 fails on the code as stated: the robots.txt content written
for domain `example.com` consists of four newline-separated lines
(`User-agent: *`, `Allow: /`, an empty line, and the `Sitemap:` line),
not exactly two lines. -/
theorem c8_robots_counterexample :
    (splitOnNl (robots_txt_content ("example.com".data))).length = 4
    ∧ ¬ ((splitOnNl (robots_txt_content ("example.com".data))).length = 2) := by
  decide

/-- Claim C8 amended: the robots.txt content is exactly the allow-all
block for all user agents followed by a blank line and the `Sitemap:`
pointer to `sitemap.xml` — four physical lines, not two. -/
theorem c8_robots_four_lines (d : Str) (hd : ∀ c ∈ d, c ≠ '\n') :
    robots_txt_content d
      = "User-agent: *\nAllow: /\n\nSitemap: https://".data ++ d ++ "/sitemap.xml".data
    ∧ splitOnNl (robots_txt_content d)
      = ["User-agent: *".data, "Allow: /".data, [],
        "Sitemap: https://".data ++ (d ++ "/sitemap.xml".data)] := by
  constructor
  · unfold robots_txt_content
    rw [show "User-agent: *\nAllow: /\n".data ++ "\nSitemap: https://".data
          = "User-agent: *\nAllow: /\n\nSitemap: https://".data from by decide]
  · unfold robots_txt_content
    rw [show ("User-agent: *\nAllow: /\n".data ++ "\nSitemap: https://".data ++ d
            ++ "/sitemap.xml".data : Str)
          = "User-agent: *".data ++ '\n' :: ("Allow: /".data ++ '\n' :: '\n'
            :: ("Sitemap: https://".data ++ (d ++ "/sitemap.xml".data))) from by
        rw [show "User-agent: *\nAllow: /\n".data ++ "\nSitemap: https://".data
              = "User-agent: *".data ++ '\n' :: ("Allow: /".data ++ '\n' :: '\n'
                :: "Sitemap: https://".data) from by decide]
        simp]
    rw [splitOnNl_append ("User-agent: *".data) (by decide) _]
    rw [splitOnNl_cons_nl]
    rw [splitOnNl_append ("Allow: /".data) (by decide) _]
    rw [splitOnNl_cons_nl, splitOnNl_cons_nl]
    rw [splitOnNl_no_nl _ ?hnn]
    · simp [List.modifyHead]
    case hnn =>
      intro c hc
      rcases List.mem_append.mp hc with h1 | h2
      · have hS : ∀ x ∈ "Sitemap: https://".data, x ≠ '\n' := by decide
        exact hS c h1
      · rcases List.mem_append.mp h2 with h3 | h4
        · exact hd c h3
        · have hC : ∀ x ∈ "/sitemap.xml".data, x ≠ '\n' := by decide
          exact hC c h4

/-- Witness for the amended C8 at a concrete domain. -/
theorem c8_robots_four_lines_witness :
    splitOnNl (robots_txt_content ("example.org".data))
      = ["User-agent: *".data, "Allow: /".data, [],
        "Sitemap: https://".data ++ ("example.org".data ++ "/sitemap.xml".data)] :=
  (c8_robots_four_lines ("example.org".data) (by decide)).2

/-- Claim C1: the fragment list placed in sitemap.xml is strictly
ascending (hence sorted and duplicate-free), contains a name exactly
when it was in the pre-run directory listing matching the fragment
pattern or was generated during the run, and the index content carries
one entry per element of this list. -/
theorem c1_index_fragment_set (cname : Option Str) (walk : List (Str × List Str))
    (listing : List Str) (gen : Nat → Str) (today : Str) :
    List.Sorted (fun a b : Str => a < b) ((mainRun cname walk listing gen today).indexList)
    ∧ ((mainRun cname walk listing gen today).indexList).Nodup
    ∧ (∀ f : Str, f ∈ (mainRun cname walk listing gen today).indexList
        ↔ ((f ∈ listing ∧ fragment_regex_match f = true)
          ∨ f ∈ (mainRun cname walk listing gen today).newSitemapFilenames))
    ∧ ((create_main_index_list (get_existing_sitemaps listing
          ++ (mainRun cname walk listing gen today).newSitemapFilenames)).map
        (fun sm => sitemap_index_entry ((mainRun cname walk listing gen today).domain) sm)).length
      = ((mainRun cname walk listing gen today).indexList).length := by
  have hidx : (mainRun cname walk listing gen today).indexList
      = create_main_index_list (get_existing_sitemaps listing
        ++ (mainRun cname walk listing gen today).newSitemapFilenames) := rfl
  have hsorted_le : List.Sorted (fun a b : Str => a ≤ b)
      ((mainRun cname walk listing gen today).indexList) := by
    rw [hidx]
    exact List.sorted_insertionSort _ _
  have hnodup : ((mainRun cname walk listing gen today).indexList).Nodup := by
    rw [hidx]
    exact (List.perm_insertionSort _ _).nodup_iff.mpr (List.nodup_dedup _)
  refine ⟨hsorted_le.lt_of_le hnodup, hnodup, ?_, ?_⟩
  · intro f
    rw [hidx]
    unfold create_main_index_list get_existing_sitemaps
    rw [List.mem_insertionSort, List.mem_dedup, List.mem_append, List.mem_filter]
  · rw [List.length_map, hidx]

/-- Witness for C1: a listing with two fragment files out of order and a
stray file still yields a strictly sorted index list. -/
theorem c1_index_fragment_set_witness :
    List.Sorted (fun a b : Str => a < b)
      ((mainRun none [] ["sm_b.xml".data, "sm_a.xml".data, "notes.txt".data]
        (fun _ => []) []).indexList) :=
  (c1_index_fragment_set none [] ["sm_b.xml".data, "sm_a.xml".data, "notes.txt".data]
    (fun _ => []) []).1

/-- Claim C9: with no HTML file discovered the chunk list is empty, so
no fragment is created and no name is generated, yet sitemap.xml is
still produced from exactly the pre-existing fragments and robots.txt
is still written. -/
theorem c9_no_html_files (cname : Option Str) (walk : List (Str × List Str))
    (listing : List Str) (gen : Nat → Str) (today : Str)
    (h : get_all_html_files walk = []) :
    (mainRun cname walk listing gen today).newFragments = []
    ∧ (mainRun cname walk listing gen today).newSitemapFilenames = []
    ∧ (mainRun cname walk listing gen today).indexList
      = create_main_index_list (get_existing_sitemaps listing)
    ∧ (∀ f, f ∈ (mainRun cname walk listing gen today).indexList
        ↔ f ∈ get_existing_sitemaps listing)
    ∧ (mainRun cname walk listing gen today).robotsContent
      = robots_txt_content ((mainRun cname walk listing gen today).domain) := by
  have hchunks : pyChunks (get_all_html_files walk) 2000 = [] := by
    rw [h]
    exact pyChunks_nil 2000
  have hnew : (mainRun cname walk listing gen today).newSitemapFilenames = [] := by
    show (List.range (pyChunks (get_all_html_files walk) 2000).length).map gen = []
    rw [hchunks]
    rfl
  have hidx : (mainRun cname walk listing gen today).indexList
      = create_main_index_list (get_existing_sitemaps listing) := by
    show create_main_index_list (get_existing_sitemaps listing
        ++ (List.range (pyChunks (get_all_html_files walk) 2000).length).map gen)
      = create_main_index_list (get_existing_sitemaps listing)
    rw [hchunks]
    simp
  refine ⟨?_, hnew, hidx, ?_, rfl⟩
  · show ((List.range (pyChunks (get_all_html_files walk) 2000).length).map gen).zip
        ((pyChunks (get_all_html_files walk) 2000).map
          (fun c => create_sitemap_chunk_content c
            (get_domain_from_cname cname).1 today)) = []
    rw [hchunks]
    rfl
  · intro f
    rw [hidx]
    unfold create_main_index_list
    rw [List.mem_insertionSort, List.mem_dedup]

/-- Witness for C9: a walk with only a README discovers no HTML file;
the run creates nothing new and indexes the one existing fragment. -/
theorem c9_no_html_files_witness :
    (mainRun none [(".".data, ["README.md".data])]
      ["sm_abc123.xml".data, "CNAME".data] (fun _ => []) []).newFragments = []
    ∧ (mainRun none [(".".data, ["README.md".data])]
      ["sm_abc123.xml".data, "CNAME".data] (fun _ => []) []).indexList
      = create_main_index_list (get_existing_sitemaps
        ["sm_abc123.xml".data, "CNAME".data]) := by
  have h := c9_no_html_files none [(".".data, ["README.md".data])]
    ["sm_abc123.xml".data, "CNAME".data] (fun _ => []) [] (by decide)
  exact ⟨h.1, h.2.2.1⟩
